import Mathlib

/-!
Verification of the `Page` protocol-bridge class from
`src/lib/backend/page.js` (devtools-backend).

The bridge sits between a device-side transport and a devtools-frontend
websocket.  We shallowly embed its state (`Page`), its domain
enable/disable operations, the inbound-message handler
(`handleIncomming`, name kept from the source) and the outbound `send`
path, together with the JavaScript string/array primitives the code
relies on (`String.prototype.indexOf`, `String.prototype.slice`,
`Array.prototype.includes`, `Array.prototype.indexOf`,
`Array.prototype.splice`), modelled with JS clamping semantics.

Observable side effects (event-emitter notifications, websocket sends,
middleware invocations) are recorded as an explicit list of `Event`s;
in-place mutation of the message object passed to `send` is modelled by
returning the final value of the argument object.
-/

namespace DevtoolsBackend

/-- JavaScript `s.indexOf(c)` for a single-character needle: index of the
first occurrence, or `-1` when absent. -/
def jsStringIndexOf (s : String) (c : Char) : Int :=
  match s.data.findIdx? (fun x => x = c) with
  | some i => (i : Int)
  | none => -1

/-- JavaScript `s.slice(start, stop?)`: negative indices count from the
end, indices are clamped into `[0, length]`, and an empty string results
when the normalized start is at or past the normalized stop. -/
def jsSlice (s : String) (start : Int) (stop : Option Int) : String :=
  let len := s.data.length
  let norm : Int → Nat := fun i =>
    if i < 0 then (max ((len : Int) + i) 0).toNat else min i.toNat len
  String.mk ((s.data.take (norm (stop.getD (len : Int)))).drop (norm start))

/-- JavaScript `arr.includes(x)` for string arrays (SameValueZero on
strings is structural equality). -/
def jsIncludes (l : List String) (x : String) : Bool :=
  decide (x ∈ l)

/-- JavaScript `arr.indexOf(x)` for string arrays: first index or `-1`. -/
def jsArrIndexOf (l : List String) (x : String) : Int :=
  match l.findIdx? (fun y => y = x) with
  | some i => (i : Int)
  | none => -1

/-- JavaScript `arr.splice(start, deleteCount)`, returning the array as
it remains after the removal (the removed elements are discarded by the
caller in the source).  `start` is clamped into `[0, length]` (negative
values count from the end) and `deleteCount` is clamped into
`[0, length - start]`. -/
def jsSpliceRemain (l : List String) (start delCount : Int) : List String :=
  let len := l.length
  let s : Nat := if start < 0 then (max ((len : Int) + start) 0).toNat
                 else min start.toNat len
  let dc : Nat := min (max delCount 0).toNat (len - s)
  l.take s ++ l.drop (s + dc)

/-- Minimal JSON value model for message payloads. -/
inductive Json where
  | null : Json
  | bool (b : Bool) : Json
  | num (n : Int) : Json
  | str (s : String) : Json
  | obj (fields : List (String × Json)) : Json


/-- An outbound protocol message as handled by `send`: all fields are
optional (`none` models an absent JS property).  `_domain`/`_method` are
the private routing fields. -/
structure Msg where
  id : Option Int := none
  result : Option Json := none
  params : Option Json := none
  _domain : Option String := none
  _method : Option String := none

/-- An inbound devtools message as handled by `handleIncomming` (after
JSON parsing): an optional `id`, a dotted `method` string, optional
`params`. -/
structure InMsg where
  id : Option Int := none
  method : String
  params : Option Json := none

/-- Websocket readiness states (the `ws` library constants). -/
inductive ReadyState where
  | CONNECTING : ReadyState
  | OPEN : ReadyState
  | CLOSING : ReadyState
  | CLOSED : ReadyState
deriving DecidableEq

/-- The client-side websocket handle: only its readiness state is
observed by the bridge. -/
structure WS where
  readyState : ReadyState
deriving DecidableEq

/-- Bridge state: the enabled-domain list `domains`, the optional
devtools-frontend websocket `ws`, and the `isConnected` flag. -/
structure Page where
  domains : List String := []
  ws : Option WS := none
  isConnected : Bool := false
deriving DecidableEq

/-- Observable effects of a bridge operation, in order of occurrence:
`domainEnabled` and `incomming` event-emitter notifications, the
`emit({id, params: {}})` call on the disable path (whose first argument
is the object itself, not an event-name string), a middleware
transformation invocation, and a websocket transmission carrying the
message that was serialized. -/
inductive Event where
  | domainEnabled (d : String) : Event
  | incomming (domain method : String) (msg : InMsg) : Event
  | emitObj (payload : Msg) : Event
  | transformCall (d m : Option String) : Event
  | wsSend (m : Msg) : Event

/-- A middleware transformation: takes the message's `result` payload
(possibly absent) and returns a new result payload. -/
def Trans : Type := Option Json → Json

/-- The middleware registry, keyed by domain then method name. -/
def MW : Type := String → String → Option Trans

/-- `middleware[msg._domain] && middleware[msg._domain][msg._method]`:
the lookup only succeeds when both private fields are present (an absent
field indexes the registry with `undefined`, which never matches). -/
def mwLookup (mw : MW) : Option String → Option String → Option Trans
  | some d, some m => mw d m
  | _, _ => none

/-- `enable(domain)` for a single domain string: if already present,
log a notice and return (no event, no push); otherwise emit
`domainEnabled` and append the domain. -/
def enable (st : Page) (d : String) : Page × List Event :=
  if jsIncludes st.domains d then (st, [])
  else ({ st with domains := st.domains ++ [d] }, [Event.domainEnabled d])

/-- `disable(domain)`: `pos = domains.indexOf(domain)` followed by
`domains.splice(pos, pos + 1)` (note: the source passes `pos + 1` as the
delete count, not `1`). -/
def disable (st : Page) (d : String) : Page :=
  let pos := jsArrIndexOf st.domains d
  { st with domains := jsSpliceRemain st.domains pos (pos + 1) }

/-- `isDomainSupported(msg)` when called with a domain string. -/
def isDomainSupportedStr (st : Page) (d : String) : Bool :=
  jsIncludes st.domains d

/-- `isDomainSupported(msg)` when called with a message object: extract
the substring of `method` before the first `.` and check membership. -/
def isDomainSupportedMsg (st : Page) (msg : InMsg) : Bool :=
  let method := msg.method
  let splitPoint := jsStringIndexOf method '.'
  jsIncludes st.domains (jsSlice method 0 (some splitPoint))

/-- `connectWebSocket(ws)`: attach the client websocket (the `message`,
`open` and `close` listeners are modelled by `handleIncomming`,
`onWsOpen` and `onWsClose`). -/
def connectWebSocket (st : Page) (w : WS) : Page :=
  { st with ws := some w }

/-- The registered `open` listener: `() => (this.isConnected = true)`. -/
def onWsOpen (st : Page) : Page :=
  { st with isConnected := true }

/-- `disconnectWebSocket()`: set `isConnected = false` and delete the
websocket handle. -/
def disconnectWebSocket (st : Page) : Page :=
  { st with isConnected := false, ws := none }

/-- The registered `close` listener is `() => ::this.disconnectWebSocket`:
its body merely evaluates the bound-method reference
`this.disconnectWebSocket.bind(this)` and returns it without calling it,
so running the listener leaves the bridge state unchanged
(`disconnectWebSocket` itself is embedded separately above). -/
def onWsClose (st : Page) : Page :=
  st

/-- `send(msg)`: drop when no websocket is attached; otherwise look up a
middleware transformation under the private `_domain`/`_method` fields
and, on a match, recursively send `{id: msg.id, result}` (the argument
object is left untouched in that branch); otherwise delete the private
fields from the argument object, then drop unless the socket is open,
else transmit.  `fuel` bounds the recursion depth of the embedding
(`none` = fuel exhausted); the state itself is never modified by `send`.
The returned `Msg` is the final value of the caller's (mutable) argument
object. -/
def send (mw : MW) : Nat → Page → Msg → Option (List Event × Msg)
  | 0, _, _ => none
  | fuel + 1, st, msg =>
    match st.ws with
    | none => some ([], msg)
    | some w =>
      match mwLookup mw msg._domain msg._method with
      | some f =>
        match send mw fuel st { id := msg.id, result := some (f msg.result) } with
        | none => none
        | some (evs, _) =>
          some (Event.transformCall msg._domain msg._method :: evs, msg)
      | none =>
        let stripped : Msg := { msg with _domain := none, _method := none }
        if w.readyState ≠ ReadyState.OPEN then some ([], stripped)
        else some ([Event.wsSend stripped], stripped)

/-- `handleIncomming(payload)` (source spelling) on an already-parsed
message: split `method` at the first `.`; on `"enable"` of a supported
domain, enable it and `send` the `{id, params: {}}` ack; on `"disable"`,
disable the domain and call `this.emit({id, params: {}})`; otherwise
drop silently unless the domain is enabled, in which case emit the
`incomming` event.  Returns the new state and the events, or `none` when
`send`'s fuel runs out. -/
def handleIncomming (mw : MW) (fuel : Nat) (st : Page) (msg : InMsg) :
    Option (Page × List Event) :=
  let splitPoint := jsStringIndexOf msg.method '.'
  let domain := jsSlice msg.method 0 (some splitPoint)
  let method := jsSlice msg.method (splitPoint + 1) none
  if method = "enable" ∧ isDomainSupportedStr st domain then
    let res := enable st domain
    match send mw fuel res.1 { id := msg.id, params := some (Json.obj []) } with
    | none => none
    | some (evs2, _) => some (res.1, res.2 ++ evs2)
  else if method = "disable" then
    some (disable st domain, [Event.emitObj { id := msg.id, params := some (Json.obj []) }])
  else if ¬ isDomainSupportedMsg st msg then
    some (st, [])
  else
    some (st, [Event.incomming domain method msg])

/-- The messages actually transmitted on the websocket within a list of
events. -/
def wsSends (evs : List Event) : List Msg :=
  evs.filterMap (fun e => match e with | Event.wsSend m => some m | _ => none)

/-! ### Helper lemmas -/

theorem enable_mem_eq (st : Page) (d : String) (h : d ∈ st.domains) :
    enable st d = (st, []) := by
  simp [enable, jsIncludes, h]

theorem jsSpliceRemain_zero (l : List String) (start : Int) :
    jsSpliceRemain l start 0 = l := by
  simp [jsSpliceRemain]

theorem findIdx_append_of_not_mem (l₁ l₂ : List String) (d : String) (h : d ∉ l₁) :
    (l₁ ++ d :: l₂).findIdx? (fun y => y = d) = some l₁.length := by
  induction l₁ with
  | nil => simp
  | cons x xs ih =>
    have hx : x ≠ d := fun he => h (he ▸ List.mem_cons_self x xs)
    have hxs : d ∉ xs := fun he => h (List.mem_cons_of_mem x he)
    simp [List.findIdx?_cons, hx, ih hxs]

theorem jsArrIndexOf_eq_neg_one (l : List String) (d : String) (h : d ∉ l) :
    jsArrIndexOf l d = -1 := by
  have hf : l.findIdx? (fun y => y = d) = none := by
    rw [List.findIdx?_eq_none_iff]
    intro x hx
    simp only [decide_eq_false_iff_not]
    exact fun he => h (he ▸ hx)
  simp [jsArrIndexOf, hf]

theorem not_mem_splice_self (l : List String) (d : String) (h : l.count d ≤ 1) :
    d ∉ jsSpliceRemain l (jsArrIndexOf l d) (jsArrIndexOf l d + 1) := by
  by_cases hm : d ∈ l
  · obtain ⟨l₁, l₂, rfl⟩ := List.append_of_mem hm
    have hc : l₁.count d + (l₂.count d + 1) ≤ 1 := by
      simpa [List.count_append] using h
    have hd1 : d ∉ l₁ := by
      intro hh
      have : 0 < l₁.count d := List.count_pos_iff.mpr hh
      omega
    have hd2 : d ∉ l₂ := by
      intro hh
      have : 0 < l₂.count d := List.count_pos_iff.mpr hh
      omega
    have hidx : jsArrIndexOf (l₁ ++ d :: l₂) d = (l₁.length : Int) := by
      simp [jsArrIndexOf, findIdx_append_of_not_mem l₁ l₂ d hd1]
    rw [hidx]
    have hlen : (l₁ ++ d :: l₂).length = l₁.length + (l₂.length + 1) := by
      simp
    have hnotneg : ¬ ((l₁.length : Int) < 0) := by omega
    have hmax : max ((l₁.length : Int) + 1) 0 = ((l₁.length + 1 : Nat) : Int) := by
      push_cast
      omega
    simp only [jsSpliceRemain, hnotneg, if_false, hmax, Int.toNat_ofNat, hlen]
    have hs : min l₁.length (l₁.length + (l₂.length + 1)) = l₁.length := by omega
    have hdc : min (l₁.length + 1) (l₁.length + (l₂.length + 1) - l₁.length)
        = min (l₁.length + 1) (l₂.length + 1) := by omega
    rw [hs, hdc]
    set dc := min (l₁.length + 1) (l₂.length + 1) with hdcdef
    have hdc1 : 1 ≤ dc := by omega
    have htake : (l₁ ++ d :: l₂).take l₁.length = l₁ := List.take_left l₁ (d :: l₂)
    have hdrop : (l₁ ++ d :: l₂).drop (l₁.length + dc) = l₂.drop (dc - 1) := by
      rw [← List.drop_drop, List.drop_left]
      obtain ⟨k, hk⟩ : ∃ k, dc = k + 1 := ⟨dc - 1, by omega⟩
      rw [hk, List.drop_succ_cons]
      simp
    rw [htake, hdrop]
    intro hmem
    rcases List.mem_append.mp hmem with h1 | h2
    · exact hd1 h1
    · exact hd2 (List.mem_of_mem_drop h2)
  · rw [jsArrIndexOf_eq_neg_one l d hm]
    have : (-1 : Int) + 1 = 0 := by omega
    rw [this, jsSpliceRemain_zero]
    exact hm

theorem disable_not_mem (st : Page) (d : String) (h : st.domains.count d ≤ 1) :
    d ∉ (disable st d).domains :=
  not_mem_splice_self st.domains d h

/-! ### Claims -/

/-- C1: the claim states that `disable(D)` removes exactly the single
matching entry, leaving all later entries in place.  The code instead
calls `splice(pos, pos + 1)`, whose delete count is `pos + 1`: on the
enabled-domain list `["A", "B", "C"]`, disabling `"B"` (at position 1)
deletes two entries and leaves `["A"]`, not `["A", "C"]`. -/
theorem C1_disable_splice_eval :
    (disable { domains := ["A", "B", "C"] } "B").domains = ["A"]
    ∧ (disable { domains := ["A", "B", "C"] } "B").domains ≠ ["A", "C"] := by
  constructor
  · rfl
  · decide

/-- C3: the claim states that a close notification on the client channel
clears the channel handle and sets the client-connected flag to false.
The registered close listener is `() => ::this.disconnectWebSocket`,
which returns the bound method without invoking it, so the state is
unchanged; `disconnectWebSocket` itself (never reached on close) is what
would have performed the update. -/
theorem C3_close_listener_keeps_connection :
    onWsClose { domains := [], ws := some ⟨ReadyState.OPEN⟩, isConnected := true }
      = { domains := [], ws := some ⟨ReadyState.OPEN⟩, isConnected := true }
    ∧ disconnectWebSocket { domains := [], ws := some ⟨ReadyState.OPEN⟩, isConnected := true }
      = { domains := [], ws := none, isConnected := false } := by
  decide

/-- C6: `enable` is idempotent.  Starting from a state holding at most
one occurrence of `d`, enabling twice leaves exactly one occurrence, and
the second call changes nothing and emits no `domainEnabled` event. -/
theorem C6_enable_idempotent (st : Page) (d : String) (h : st.domains.count d ≤ 1) :
    (enable (enable st d).1 d).1.domains.count d = 1
    ∧ enable (enable st d).1 d = ((enable st d).1, []) := by
  by_cases hm : d ∈ st.domains
  · have h1 : enable st d = (st, []) := enable_mem_eq st d hm
    have hpos : 0 < st.domains.count d := List.count_pos_iff.mpr hm
    have h2 : enable (st, ([] : List Event)).1 d = (st, []) := enable_mem_eq st d hm
    rw [h1, h2]
    refine ⟨?_, rfl⟩
    show st.domains.count d = 1
    omega
  · have h0 : st.domains.count d = 0 := List.count_eq_zero.mpr hm
    have h1 : enable st d
        = ({ st with domains := st.domains ++ [d] }, [Event.domainEnabled d]) := by
      simp [enable, jsIncludes, hm]
    have hm2 : d ∈ st.domains ++ [d] :=
      List.mem_append_right _ (List.mem_singleton.mpr rfl)
    rw [h1]
    refine ⟨?_, enable_mem_eq _ d hm2⟩
    rw [enable_mem_eq _ d hm2]
    simp [List.count_append, h0]

/-- C6 witness: enabling `"Network"` twice from the empty state leaves
exactly one occurrence, and the second call is a silent no-op. -/
theorem C6_enable_idempotent_witness :
    (enable (enable { domains := [] } "Network").1 "Network").1.domains.count "Network" = 1
    ∧ enable (enable { domains := [] } "Network").1 "Network"
        = ((enable { domains := [] } "Network").1, []) :=
  C6_enable_idempotent { domains := [] } "Network" (by decide)

/-- C2 counterexample: on inbound `{id: 1, method: "Network.enable"}`
with `"Network"` supported and the client socket open, the bridge sends
exactly one ack, but its payload is `{id: 1, params: {}}` — the `send`
call on the enable path passes `{id: msg.id, params: {}}`, which differs
from the `{id: 1, result: {}}` payload the claim states. -/
theorem C2_enable_ack_counterexample :
    handleIncomming (fun _ _ => none) 1
      { domains := ["Network"], ws := some ⟨ReadyState.OPEN⟩ }
      { id := some 1, method := "Network.enable" }
      = some ({ domains := ["Network"], ws := some ⟨ReadyState.OPEN⟩ },
              [Event.wsSend { id := some 1, params := some (Json.obj []) }])
    ∧ ({ id := some 1, params := some (Json.obj []) } : Msg)
        ≠ ({ id := some 1, result := some (Json.obj []) } : Msg) := by
  refine ⟨rfl, fun hcontra => ?_⟩
  exact Option.noConfusion (congrArg Msg.result hcontra)

/-- C2 (amended): on an inbound `"<D>.enable"` message for a supported
domain `D` (i.e. `D` is in the domain list) with an open client socket,
handling enables `D` (the state keeps `D`, unchanged) and produces
exactly one outbound acknowledgment, whose payload is
`{id: n, params: {}}`. -/
theorem C2_enable_ack (mw : MW) (fuel : Nat) (st : Page) (msg : InMsg) (w : WS)
    (hmeth : jsSlice msg.method (jsStringIndexOf msg.method '.' + 1) none = "enable")
    (hdom : jsSlice msg.method 0 (some (jsStringIndexOf msg.method '.')) ∈ st.domains)
    (hws : st.ws = some w)
    (hopen : w.readyState = ReadyState.OPEN) :
    handleIncomming mw (fuel + 1) st msg
      = some (st, [Event.wsSend { id := msg.id, params := some (Json.obj []) }]) := by
  have h1 : enable st (jsSlice msg.method 0 (some (jsStringIndexOf msg.method '.')))
      = (st, []) := enable_mem_eq _ _ hdom
  have hsup : isDomainSupportedStr st
      (jsSlice msg.method 0 (some (jsStringIndexOf msg.method '.'))) = true := by
    simp [isDomainSupportedStr, jsIncludes, hdom]
  simp only [handleIncomming, hmeth, hsup, h1]
  simp [send, hws, mwLookup, hopen]

/-- C2 witness: the concrete `Network.enable` run from the amended
theorem. -/
theorem C2_enable_ack_witness :
    handleIncomming (fun _ _ => none) 1
      { domains := ["Network"], ws := some ⟨ReadyState.OPEN⟩ }
      { id := some 1, method := "Network.enable" }
      = some ({ domains := ["Network"], ws := some ⟨ReadyState.OPEN⟩ },
              [Event.wsSend { id := some 1, params := some (Json.obj []) }]) :=
  C2_enable_ack (fun _ _ => none) 0 _ _ ⟨ReadyState.OPEN⟩ rfl (by decide) rfl rfl

/-- C4: an inbound message whose method (after the first `.`) is neither
`"enable"` nor `"disable"` and whose domain is not in the enabled-domain
list is dropped silently: no `incomming` event, no outbound message, no
error, and the state is unchanged. -/
theorem C4_unsupported_dropped (mw : MW) (fuel : Nat) (st : Page) (msg : InMsg)
    (hen : jsSlice msg.method (jsStringIndexOf msg.method '.' + 1) none ≠ "enable")
    (hdis : jsSlice msg.method (jsStringIndexOf msg.method '.' + 1) none ≠ "disable")
    (hdom : jsSlice msg.method 0 (some (jsStringIndexOf msg.method '.')) ∉ st.domains) :
    handleIncomming mw fuel st msg = some (st, []) := by
  simp only [handleIncomming]
  rw [if_neg (fun hcontra => hen hcontra.1), if_neg hdis, if_pos]
  simp [isDomainSupportedMsg, jsIncludes, hdom]

/-- C4 witness: `{id: 2, method: "Network.loadingFinished"}` before
`"Network"` is enabled is dropped with no events and no state change. -/
theorem C4_unsupported_dropped_witness :
    handleIncomming (fun _ _ => none) 0 {}
      { id := some 2, method := "Network.loadingFinished" }
      = some ({}, []) :=
  C4_unsupported_dropped (fun _ _ => none) 0 {} _ (by decide) (by decide) (by decide)

/-- C8: an inbound `"<D>.disable"` message disables `D` (afterwards `D`
is not in the enabled-domain list, assuming it occurred at most once)
and produces exactly one completion signal — the `this.emit({id, params: {}})`
call carrying the same `id` — with no `incomming` event and no websocket
transmission. -/
theorem C8_disable_ack (mw : MW) (fuel : Nat) (st : Page) (msg : InMsg)
    (hmeth : jsSlice msg.method (jsStringIndexOf msg.method '.' + 1) none = "disable")
    (hcnt : st.domains.count (jsSlice msg.method 0 (some (jsStringIndexOf msg.method '.'))) ≤ 1) :
    handleIncomming mw fuel st msg
      = some (disable st (jsSlice msg.method 0 (some (jsStringIndexOf msg.method '.'))),
              [Event.emitObj { id := msg.id, params := some (Json.obj []) }])
    ∧ jsSlice msg.method 0 (some (jsStringIndexOf msg.method '.'))
        ∉ (disable st (jsSlice msg.method 0 (some (jsStringIndexOf msg.method '.')))).domains := by
  refine ⟨?_, disable_not_mem st _ hcnt⟩
  simp only [handleIncomming, hmeth]
  rw [if_neg (fun hcontra => absurd hcontra.1 (by decide))]
  simp

/-- C8 witness: `{id: 3, method: "Network.disable"}` with `"Network"`
enabled. -/
theorem C8_disable_ack_witness :
    handleIncomming (fun _ _ => none) 0 { domains := ["Network"] }
      { id := some 3, method := "Network.disable" }
      = some ({ domains := [] },
              [Event.emitObj { id := some 3, params := some (Json.obj []) }])
    ∧ "Network" ∉ ({ domains := [] } : Page).domains :=
  C8_disable_ack (fun _ _ => none) 0 { domains := ["Network"] }
    { id := some 3, method := "Network.disable" } rfl (by decide)

/-- C9: on an outbound message whose `_domain`/`_method` pair has a
registered transformation and with a client channel attached, `send`
invokes the transformation exactly once (a single `transformCall` event)
and recursively sends its output as `{id: msg.id, result}` — a message
with no `_domain`/`_method` fields, so the recursive call cannot match a
transformation again and the recursion terminates within depth one
(fuel 2 suffices; the websocket transmission happens iff the socket is
open). -/
theorem C9_transform_once (mw : MW) (st : Page) (msg : Msg) (f : Trans) (w : WS)
    (hws : st.ws = some w)
    (hf : mwLookup mw msg._domain msg._method = some f) :
    send mw 2 st msg
      = some (Event.transformCall msg._domain msg._method ::
                (if w.readyState = ReadyState.OPEN
                 then [Event.wsSend { id := msg.id, result := some (f msg.result) }]
                 else []),
              msg) := by
  show send mw (0 + 1 + 1) st msg = _
  simp only [send, hws, hf]
  by_cases ho : w.readyState = ReadyState.OPEN
  · simp [mwLookup, ho]
  · simp [mwLookup, ho]

/-- C9 witness: an always-matching registry on a concrete message with
`_domain = "X"`, `_method = "Y"` and an open socket — the transformation
runs once and its output is transmitted with the same `id` and no
private fields. -/
theorem C9_transform_once_witness :
    send (fun _ _ => some (fun _ => Json.num 1)) 2 { ws := some ⟨ReadyState.OPEN⟩ }
      { id := some 5, result := some (Json.obj []), _domain := some "X", _method := some "Y" }
      = some ([Event.transformCall (some "X") (some "Y"),
               Event.wsSend { id := some 5, result := some (Json.num 1) }],
              { id := some 5, result := some (Json.obj []),
                _domain := some "X", _method := some "Y" }) :=
  C9_transform_once (fun _ _ => some (fun _ => Json.num 1)) { ws := some ⟨ReadyState.OPEN⟩ }
    { id := some 5, result := some (Json.obj []), _domain := some "X", _method := some "Y" }
    (fun _ => Json.num 1) ⟨ReadyState.OPEN⟩ rfl rfl

/-- C10: when a client channel is attached and no transformation
matches, `send` deletes `_domain`/`_method` from the caller's own
message object before the readiness check: the final value of the
argument object is the stripped message even when the transmission is
dropped because the socket is not open. -/
theorem C10_send_strips_caller_arg (mw : MW) (fuel : Nat) (st : Page) (msg : Msg) (w : WS)
    (hws : st.ws = some w)
    (hmw : mwLookup mw msg._domain msg._method = none) :
    send mw (fuel + 1) st msg
      = some ((if w.readyState = ReadyState.OPEN
               then [Event.wsSend { msg with _domain := none, _method := none }]
               else []),
              { msg with _domain := none, _method := none }) := by
  simp only [send, hws, hmw]
  by_cases ho : w.readyState = ReadyState.OPEN
  · simp [ho]
  · simp [ho]

/-- C10 witness: with the socket attached but CLOSED, the message is
dropped (no events) yet the caller's object has lost its
`_domain`/`_method` fields. -/
theorem C10_send_strips_caller_arg_witness :
    send (fun _ _ => none) 1 { ws := some ⟨ReadyState.CLOSED⟩ }
      { id := some 7, _domain := some "X", _method := some "Y" }
      = some ([], { id := some 7 }) :=
  C10_send_strips_caller_arg (fun _ _ => none) 0 { ws := some ⟨ReadyState.CLOSED⟩ }
    { id := some 7, _domain := some "X", _method := some "Y" } ⟨ReadyState.CLOSED⟩ rfl rfl

/-- C5: every message actually transmitted on the client websocket by
`send` has no `_domain` and no `_method` field — the private routing
fields are deleted before serialization on the direct path, and the
transformation path only ever sends `{id, result}`. -/
theorem C5_no_private_fields_on_wire (mw : MW) (fuel : Nat) (st : Page) (msg : Msg)
    (evs : List Event) (fin m : Msg)
    (h : send mw fuel st msg = some (evs, fin))
    (hm : Event.wsSend m ∈ evs) :
    m._domain = none ∧ m._method = none := by
  induction fuel generalizing msg evs fin with
  | zero => simp [send] at h
  | succ n ih =>
    simp only [send] at h
    split at h
    · -- no websocket attached
      simp only [Option.some.injEq, Prod.mk.injEq] at h
      obtain ⟨rfl, rfl⟩ := h
      simp at hm
    · -- websocket attached
      split at h
      · -- a transformation matched
        split at h
        · exact absurd h (by simp)
        · rename_i evs' fin' heq
          simp only [Option.some.injEq, Prod.mk.injEq] at h
          obtain ⟨rfl, rfl⟩ := h
          rcases List.mem_cons.mp hm with hc | hmem
          · exact absurd hc (by simp)
          · exact ih _ _ _ heq hmem
      · -- no transformation: the private fields are stripped
        split at h
        · simp only [Option.some.injEq, Prod.mk.injEq] at h
          obtain ⟨rfl, rfl⟩ := h
          simp at hm
        · simp only [Option.some.injEq, Prod.mk.injEq] at h
          obtain ⟨rfl, rfl⟩ := h
          simp only [List.mem_singleton, Event.wsSend.injEq] at hm
          subst hm
          exact ⟨rfl, rfl⟩

/-- C5 witness: the outbound message
`{id: 5, result: {ok: true}, _domain: "X", _method: "Y"}` with no
matching transformation is delivered as exactly `{id: 5, result: {ok: true}}`,
a payload with no private fields. -/
theorem C5_no_private_fields_on_wire_witness :
    send (fun _ _ => none) 1 { ws := some ⟨ReadyState.OPEN⟩ }
      { id := some 5, result := some (Json.obj [("ok", Json.bool true)]),
        _domain := some "X", _method := some "Y" }
      = some ([Event.wsSend { id := some 5, result := some (Json.obj [("ok", Json.bool true)]) }],
              { id := some 5, result := some (Json.obj [("ok", Json.bool true)]) })
    ∧ ({ id := some 5, result := some (Json.obj [("ok", Json.bool true)]) } : Msg)._domain = none
    ∧ ({ id := some 5, result := some (Json.obj [("ok", Json.bool true)]) } : Msg)._method = none :=
  ⟨rfl,
    C5_no_private_fields_on_wire (fun _ _ => none) 1 { ws := some ⟨ReadyState.OPEN⟩ }
      { id := some 5, result := some (Json.obj [("ok", Json.bool true)]),
        _domain := some "X", _method := some "Y" }
      [Event.wsSend { id := some 5, result := some (Json.obj [("ok", Json.bool true)]) }]
      { id := some 5, result := some (Json.obj [("ok", Json.bool true)]) }
      { id := some 5, result := some (Json.obj [("ok", Json.bool true)]) }
      rfl (List.mem_singleton.mpr rfl)⟩

/-- C7: when no client channel is attached, or the attached channel's
readiness state is not OPEN, `send` transmits nothing on the websocket
(and, being a total function of the state, raises no error). -/
theorem C7_send_no_bytes (mw : MW) (fuel : Nat) (st : Page) (msg : Msg)
    (evs : List Event) (fin : Msg)
    (hno : ∀ w, st.ws = some w → w.readyState ≠ ReadyState.OPEN)
    (h : send mw fuel st msg = some (evs, fin)) :
    wsSends evs = [] := by
  induction fuel generalizing msg evs fin with
  | zero => simp [send] at h
  | succ n ih =>
    simp only [send] at h
    split at h
    · simp only [Option.some.injEq, Prod.mk.injEq] at h
      obtain ⟨rfl, rfl⟩ := h
      rfl
    · rename_i w heqws
      split at h
      · split at h
        · exact absurd h (by simp)
        · rename_i evs' fin' heq
          simp only [Option.some.injEq, Prod.mk.injEq] at h
          obtain ⟨rfl, rfl⟩ := h
          simpa [wsSends] using ih _ _ _ heq
      · rw [if_pos (hno _ heqws)] at h
        simp only [Option.some.injEq, Prod.mk.injEq] at h
        obtain ⟨rfl, rfl⟩ := h
        rfl

/-- C7 witness: a closed socket with an always-matching transformation —
the transformation still runs but nothing is transmitted. -/
theorem C7_send_no_bytes_witness :
    wsSends [Event.transformCall (some "X") (some "Y")] = [] :=
  C7_send_no_bytes (fun _ _ => some (fun _ => Json.num 1)) 2
    { ws := some ⟨ReadyState.CLOSED⟩ }
    { id := some 5, _domain := some "X", _method := some "Y" }
    [Event.transformCall (some "X") (some "Y")]
    { id := some 5, _domain := some "X", _method := some "Y" }
    (fun w hw => by
      rw [Option.some.injEq] at hw
      rw [← hw]
      decide)
    rfl

end DevtoolsBackend
